import Mathlib

/-!
# Verification of the resilient IOT client (`client.py`)

A shallow embedding of the protocol logic of `Client` in `client.py`:
the wire-frame serialization done by `write`, the frame classification and
duplicate filtering done by `_reader`, the pending-ACK set discipline, the
line assembly and keepalive handling of `_readline`, the partial-write
tolerant `_send`, the QoS retransmission loop `_do_qos` together with the
guarded send `_write`, and the supervisor loop `_run`'s one-shot
`bad_server` policy.

Python strings/bytes are modelled as `List Char`; machine time
(`utime.ticks_ms`) as a monotone `Nat` clock supplied by the environment;
the cooperative scheduler as explicit event/observation traces consumed at
each suspension point; fuel bounds every loop, with fuel exhaustion a
distinct "still running" outcome (never confused with a return or an
error).
-/

namespace IotClient

/-! ## Hex formatting (Python `'{:02x}'.format`) and frame serialization -/

/-- One lowercase hex digit, as produced by Python `%x` formatting. -/
def hexChar (n : ℕ) : Char :=
  if n < 10 then Char.ofNat (48 + n) else Char.ofNat (87 + n)

/-- Hex digits of `n`, least significant first (empty for 0). -/
def toHexRev (n : ℕ) : List Char :=
  if h : n = 0 then [] else hexChar (n % 16) :: toHexRev (n / 16)
  termination_by n
  decreasing_by exact Nat.div_lt_self (Nat.pos_of_ne_zero h) (by decide)

/-- Python `'{:02x}'.format n`: lowercase hex, zero padded to width 2. -/
def fmt02x (n : ℕ) : List Char :=
  let ds := if n = 0 then ['0'] else (toHexRev n).reverse
  if ds.length < 2 then '0' :: ds else ds

/-- Python `buf.endswith('\n')`. -/
def endsNL (l : List Char) : Bool := l.getLast? == some '\n'

/-- The line built by `Client.write` (client.py lines 78-81): the 2-hex-digit
message id is prepended, and a trailing newline is appended only when `buf`
does not already end with one
(`fstr = '{:02x}{}' if buf.endswith('\n') else '{:02x}{}\n'`). -/
def serialize (mid : ℕ) (buf : List Char) : List Char :=
  fmt02x mid ++ buf ++ (if endsNL buf then [] else ['\n'])

/-- The ACK frame sent by `Client._sendack` (client.py line 240):
`'{:02x}\n'.format(mid)`. -/
def ackFrame (mid : ℕ) : List Char := fmt02x mid ++ ['\n']

lemma toHexRev_eq (n : ℕ) :
    toHexRev n = if n = 0 then [] else hexChar (n % 16) :: toHexRev (n / 16) := by
  rw [toHexRev]
  split <;> rfl

lemma fmt02x_length_of_lt (mid : ℕ) (h : mid < 256) : (fmt02x mid).length = 2 := by
  unfold fmt02x
  by_cases h0 : mid = 0
  · simp [h0]
  · rw [toHexRev_eq mid]
    simp only [h0, if_neg, ite_false]
    by_cases h1 : mid / 16 = 0
    · simp [h1, toHexRev_eq]
    · have h2 : mid / 16 / 16 = 0 := by omega
      rw [toHexRev_eq (mid / 16)]
      simp [h1, h2, toHexRev_eq]

/-- C10: `write(buf, qos)` serializes to the 2-hex-digit identifier followed
by `buf`, with a trailing newline appended exactly when `buf` does not
already end with one (so `write` never adds a delimiter to an
already-delimited payload); consequently an empty payload, or a payload that
is just `'\n'`, produces the same 3-byte wire frame as the ACK frame for
that identifier. -/
theorem write_serialization (mid : ℕ) (buf : List Char) :
    (endsNL buf = true → serialize mid buf = fmt02x mid ++ buf) ∧
    (endsNL buf = false → serialize mid buf = fmt02x mid ++ buf ++ ['\n']) ∧
    serialize mid [] = ackFrame mid ∧
    serialize mid ['\n'] = ackFrame mid ∧
    (mid < 256 → (serialize mid []).length = 3 ∧ (serialize mid ['\n']).length = 3) := by
  refine ⟨fun h => ?_, fun h => ?_, ?_, ?_, fun h => ?_⟩
  · simp [serialize, h]
  · simp [serialize, h]
  · simp [serialize, ackFrame, endsNL]
  · simp [serialize, ackFrame, endsNL]
  · have h2 := fmt02x_length_of_lt mid h
    constructor <;> simp [serialize, ackFrame, endsNL, h2]

/-- Witness for `write_serialization` at identifier 7 and payload `"ab"`. -/
theorem write_serialization_witness :
    serialize 7 ['a', 'b'] = fmt02x 7 ++ ['a', 'b'] ++ ['\n'] ∧
    serialize 7 [] = ackFrame 7 ∧ (serialize 7 []).length = 3 :=
  ⟨(write_serialization 7 ['a', 'b']).2.1 (by decide),
   (write_serialization 7 []).2.2.1,
   ((write_serialization 7 []).2.2.2.2 (by decide)).1⟩

/-! ## Frame parsing and the reader (`Client._reader`) -/

/-- Value of one hex digit, as accepted by Python `int(_, 16)` (canonical
digits only; malformed digits yield `none`, where the Python call raises
`ValueError`). -/
def hexVal (c : Char) : Option ℕ :=
  if '0' ≤ c ∧ c ≤ '9' then some (c.toNat - 48)
  else if 'a' ≤ c ∧ c ≤ 'f' then some (c.toNat - 87)
  else if 'A' ≤ c ∧ c ≤ 'F' then some (c.toNat - 55)
  else none

/-- Python `int(line[0:2], 16)` on a received line (client.py line 219), for
canonical two-hex-digit prefixes. -/
def parseMid (l : List Char) : Option ℕ :=
  match l with
  | c1 :: c2 :: _ =>
    match hexVal c1, hexVal c2 with
    | some a, some b => some (16 * a + b)
    | _, _ => none
  | _ => none

/-- Modelled from the spec: the Duplicate Filter `isnew` lives in the
package `__init__.py`, which is not under `src/`. Per the spec (§4.6, §3)
it "accepts an identifier and answers whether it is new relative to a
bounded recent-history window ...; a special call with value −1 clears the
entire window", the window being "a bounded record of recently-accepted
data identifiers". The window is modelled as a finite set of identifiers
(its implementation-defined size bound, "sufficient to span in-flight
retransmissions", is abstracted away); the call returns the answer and the
updated window. -/
def isnew (window : Finset ℕ) (m : ℤ) : Bool × Finset ℕ :=
  if m < 0 then (true, ∅)
  else (decide (m.toNat ∉ window), insert m.toNat window)

/-- The mutable state touched by `Client._reader`: the inbound-data event
`_evread` (flag and payload), the pending-ACK set `_acks_pend`, the
duplicate-filter window (state of `isnew`), the connect counter
`self.connects` and the reader's local snapshot `c` of it. -/
structure RdState where
  evSet : Bool
  evVal : List Char
  acksPend : Finset ℕ
  window : Finset ℕ
  connects : ℕ
  c : ℕ
deriving DecidableEq

/-- Externally visible effects of one reader iteration: the `_sendack`
tasks scheduled (identifiers to acknowledge) and the payload published into
the inbound-data event, if any. -/
structure RdEffects where
  acks : List ℕ
  published : Option (List Char)
deriving DecidableEq

/-- One iteration of `Client._reader`'s loop body (client.py lines
218-234) on a completed line. `none` models the uncaught `ValueError` from
`int(line[0:2], 16)` on a malformed identifier. Otherwise, in source
order: a 3-byte line is an ACK (`discard` from `_acks_pend`); a data line
arriving while `_evread` is still set is dropped (`continue` before any ACK
or duplicate bookkeeping); otherwise an ACK task is scheduled, identifier 0
first clears the duplicate window via `isnew (-1)`, a fresh identifier
publishes `line[2:]` into `_evread`, and the connect counter is bumped once
per connection (guarded by the snapshot `c`). -/
def readerStep (st : RdState) (line : List Char) : Option (RdState × RdEffects) :=
  match parseMid line with
  | none => none
  | some mid =>
    if line.length = 3 then
      some ({ st with acksPend := st.acksPend.erase mid }, ⟨[], none⟩)
    else if st.evSet then
      some (st, ⟨[], none⟩)
    else
      let w0 := if mid = 0 then (isnew st.window (-1)).2 else st.window
      let r := isnew w0 (mid : ℤ)
      let st1 : RdState :=
        { st with window := r.2, evSet := r.1,
                  evVal := if r.1 then line.drop 2 else st.evVal }
      let st2 := if st1.c = st1.connects then { st1 with connects := st1.connects + 1 } else st1
      some (st2, ⟨[mid], if r.1 then some (line.drop 2) else none⟩)

/-- The call `Client.readline` (client.py lines 70-74): waits on `_evread`, takes
its value and clears the flag. `none` models the blocked case (event not
set). -/
def readline (st : RdState) : Option (List Char × RdState) :=
  if st.evSet then some (st.evVal, { st with evSet := false }) else none

/-- Duplicate window consulted for a data frame: identifier 0 first clears
it (`isnew(-1)`), any other identifier sees the current window. -/
def dataW0 (st : RdState) (mid : ℕ) : Finset ℕ :=
  if mid = 0 then ∅ else st.window

/-- Whether the data frame's identifier is fresh per the duplicate filter. -/
def dataFresh (st : RdState) (mid : ℕ) : Bool := decide (mid ∉ dataW0 st mid)

/-- Reader state after the duplicate-filter bookkeeping of a data frame. -/
def dataSt1 (st : RdState) (line : List Char) (mid : ℕ) : RdState :=
  { st with window := insert mid (dataW0 st mid), evSet := dataFresh st mid,
            evVal := if dataFresh st mid then line.drop 2 else st.evVal }

/-- Reader state after a data frame, including the connect-count bump. -/
def dataSt2 (st : RdState) (line : List Char) (mid : ℕ) : RdState :=
  if st.c = st.connects then
    { dataSt1 st line mid with connects := (dataSt1 st line mid).connects + 1 }
  else dataSt1 st line mid

lemma isnew_clear (w : Finset ℕ) : isnew w (-1) = (true, ∅) := by
  simp [isnew]

lemma isnew_natCast (w : Finset ℕ) (m : ℕ) :
    isnew w (m : ℤ) = (decide (m ∉ w), insert m w) := by
  have h : ¬((m : ℤ) < 0) := by omega
  simp [isnew, h]

lemma dataSt2_evSet (st : RdState) (line : List Char) (mid : ℕ) :
    (dataSt2 st line mid).evSet = dataFresh st mid := by
  unfold dataSt2 dataSt1; split <;> rfl

lemma dataSt2_evVal (st : RdState) (line : List Char) (mid : ℕ) :
    (dataSt2 st line mid).evVal =
      if dataFresh st mid then line.drop 2 else st.evVal := by
  unfold dataSt2 dataSt1; split <;> rfl

lemma dataSt2_window (st : RdState) (line : List Char) (mid : ℕ) :
    (dataSt2 st line mid).window = insert mid (dataW0 st mid) := by
  unfold dataSt2 dataSt1; split <;> rfl

/-- Evaluation of `_reader`'s loop body on a well-formed data frame arriving
while the inbound event is clear. -/
lemma readerStep_data (st : RdState) (line : List Char) (mid : ℕ)
    (hp : parseMid line = some mid) (hlen : line.length ≠ 3)
    (hev : st.evSet = false) :
    readerStep st line =
      some (dataSt2 st line mid,
            ⟨[mid], if dataFresh st mid then some (line.drop 2) else none⟩) := by
  unfold readerStep
  rw [hp]
  simp only [hlen, if_false, ite_false, if_neg, hev, Bool.false_eq_true,
    isnew_clear, isnew_natCast]
  unfold dataSt2 dataSt1 dataFresh dataW0
  rfl

lemma readline_set (st : RdState) (h : st.evSet = true) :
    readline st = some (st.evVal, { st with evSet := false }) := by
  simp [readline, h]

/-- A reader state with no payload pending and identifier 5 already seen. -/
def c3State : RdState := ⟨false, [], ∅, {5}, 0, 0⟩

/-- C3 counterexample: on the data frame `"00ab\n"` with no payload pending,
the payload the application gets back from `readline` is `"ab\n"` — the
identifier is stripped but the delimiter is retained (`line[2:].decode()`),
so `readline` does not return `"ab"` as the claim states. -/
theorem reader_frame00ab_counterexample :
    ((readerStep c3State ['0', '0', 'a', 'b', '\n']).bind
        fun p => (readline p.1).map Prod.fst) = some ['a', 'b', '\n'] ∧
    ((readerStep c3State ['0', '0', 'a', 'b', '\n']).bind
        fun p => (readline p.1).map Prod.fst) ≠ some ['a', 'b'] := by
  decide

/-- C3 (amended): when the reader receives the data frame `"00ab\n"`
(identifier 0) with no payload pending, the duplicate window is cleared
(and then records identifier 0, leaving exactly `{0}`), an ACK task for
identifier 0 is scheduled — `_sendack 0` sends the frame `"00\n"` — and the
frame is published so that `readline` returns `"ab\n"` (identifier
stripped, line delimiter retained). -/
theorem reader_frame00ab (st : RdState) (h : st.evSet = false) :
    ∃ st1 eff, readerStep st ['0', '0', 'a', 'b', '\n'] = some (st1, eff) ∧
      st1.window = insert 0 ∅ ∧ eff.acks = [0] ∧
      eff.published = some ['a', 'b', '\n'] ∧
      readline st1 = some (['a', 'b', '\n'], { st1 with evSet := false }) ∧
      ackFrame 0 = ['0', '0', '\n'] := by
  have hp : parseMid ['0', '0', 'a', 'b', '\n'] = some 0 := by decide
  have hf : dataFresh st 0 = true := by simp [dataFresh, dataW0]
  have e1 := readerStep_data st ['0', '0', 'a', 'b', '\n'] 0 hp (by decide) h
  refine ⟨_, _, e1, ?_, rfl, ?_, ?_, by decide⟩
  · rw [dataSt2_window]
    simp [dataW0]
  · simp [hf]
  · rw [readline_set _ (by rw [dataSt2_evSet, hf]), dataSt2_evVal, hf]
    simp

/-- Witness for `reader_frame00ab` at the concrete state `c3State`. -/
theorem reader_frame00ab_witness :
    ∃ st1 eff, readerStep c3State ['0', '0', 'a', 'b', '\n'] = some (st1, eff) ∧
      st1.window = insert 0 ∅ ∧ eff.acks = [0] ∧
      eff.published = some ['a', 'b', '\n'] ∧
      readline st1 = some (['a', 'b', '\n'], { st1 with evSet := false }) ∧
      ackFrame 0 = ['0', '0', '\n'] :=
  reader_frame00ab c3State (by decide)

/-- A reader state whose inbound-data event still holds an unconsumed
payload (`"x\n"`). -/
def busyState : RdState := ⟨true, ['x', '\n'], ∅, ∅, 0, 0⟩

/-- C2 counterexample: a data frame (`"01cd\n"`) arriving while the
inbound-data event is still set is dropped with NO effects at all — the
state is returned unchanged (so the pending payload survives, but also the
duplicate window is untouched) and no `_sendack` task is scheduled,
contradicting the claim that the ACK reply and the duplicate-filter
bookkeeping still happen: in `_reader` the `continue` on
`self._evread.is_set()` comes before both. -/
theorem reader_backpressure_counterexample :
    busyState.evSet = true ∧
    readerStep busyState ['0', '1', 'c', 'd', '\n'] =
      some (busyState, ⟨[], none⟩) := by
  decide

/-- C2 (amended): a data frame that arrives while the inbound-data event
still holds an unconsumed payload is dropped entirely: the pending payload
is never overwritten (the whole state is unchanged), and — contrary to the
original claim — no ACK reply is scheduled and no duplicate-filter
bookkeeping happens for it; the peer's QoS retransmission is what
redelivers the frame later. -/
theorem reader_backpressure_drop (st : RdState) (line : List Char) (mid : ℕ)
    (hp : parseMid line = some mid) (hlen : line.length ≠ 3)
    (hev : st.evSet = true) :
    readerStep st line = some (st, ⟨[], none⟩) := by
  unfold readerStep
  rw [hp]
  simp [hlen, hev]

/-- Witness for `reader_backpressure_drop` on the frame `"02ef\n"`. -/
theorem reader_backpressure_drop_witness :
    readerStep busyState ['0', '2', 'e', 'f', '\n'] =
      some (busyState, ⟨[], none⟩) :=
  reader_backpressure_drop busyState ['0', '2', 'e', 'f', '\n'] 2
    (by decide) (by decide) (by decide)

/-- C4: (first part) a data identifier delivered twice in a row with no
intervening reset (the identifier is non-zero, since a 0 frame is itself
the reset signal) and the inbound slot empty both times: the first copy is
published and ACKed; after the application consumes it via `readline`, the
second copy is ACKed too but not published. (second part) After a frame
with identifier 0 has been received (and consumed), a previously-seen
identifier is accepted as new again and published. -/
theorem reader_dup_and_reset :
    (∀ st line mid, parseMid line = some mid → line.length ≠ 3 → mid ≠ 0 →
      st.evSet = false → mid ∉ st.window →
      ∃ st1 eff1 v st1' st2 eff2,
        readerStep st line = some (st1, eff1) ∧
        eff1.acks = [mid] ∧ eff1.published = some (line.drop 2) ∧
        readline st1 = some (v, st1') ∧
        readerStep st1' line = some (st2, eff2) ∧
        eff2.acks = [mid] ∧ eff2.published = none) ∧
    (∀ st line0 lineM m, parseMid line0 = some 0 → line0.length ≠ 3 →
      parseMid lineM = some m → lineM.length ≠ 3 → m ≠ 0 →
      st.evSet = false → m ∈ st.window →
      ∃ st1 eff1 v st1' st2 eff2,
        readerStep st line0 = some (st1, eff1) ∧
        readline st1 = some (v, st1') ∧
        readerStep st1' lineM = some (st2, eff2) ∧
        eff2.published = some (lineM.drop 2)) := by
  constructor
  · intro st line mid hp hlen hmid hev hw
    have hf1 : dataFresh st mid = true := by
      simp [dataFresh, dataW0, hmid, hw]
    have e1 := readerStep_data st line mid hp hlen hev
    have hset : (dataSt2 st line mid).evSet = true := by
      rw [dataSt2_evSet, hf1]
    have hwin : ({ dataSt2 st line mid with evSet := false } : RdState).window =
        insert mid (dataW0 st mid) := dataSt2_window st line mid
    have hf2 : dataFresh { dataSt2 st line mid with evSet := false } mid = false := by
      simp [dataFresh, dataW0, hmid, dataSt2_window]
    have e2 := readerStep_data { dataSt2 st line mid with evSet := false }
      line mid hp hlen rfl
    refine ⟨_, _, _, _, _, _, e1, rfl, ?_, readline_set _ hset, e2, rfl, ?_⟩
    · simp [hf1]
    · simp [hf2]
  · intro st line0 lineM m hp0 hlen0 hpM hlenM hm hev hw
    have hf1 : dataFresh st 0 = true := by simp [dataFresh, dataW0]
    have e1 := readerStep_data st line0 0 hp0 hlen0 hev
    have hset : (dataSt2 st line0 0).evSet = true := by
      rw [dataSt2_evSet, hf1]
    have hwin : ({ dataSt2 st line0 0 with evSet := false } : RdState).window =
        insert 0 (dataW0 st 0) := dataSt2_window st line0 0
    have hf2 : dataFresh { dataSt2 st line0 0 with evSet := false } m = true := by
      simp [dataFresh, dataW0, hm, dataSt2_window]
    have e2 := readerStep_data { dataSt2 st line0 0 with evSet := false }
      lineM m hpM hlenM rfl
    exact ⟨_, _, _, _, _, _, e1, readline_set _ hset, e2, by simp [hf2]⟩

/-- Witness for `reader_dup_and_reset`: identifier 1 (`"01cd\n"`) delivered
twice from `c3State`, and identifier 5 re-accepted after a 0 frame. -/
theorem reader_dup_and_reset_witness :
    (∃ st1 eff1 v st1' st2 eff2,
      readerStep c3State ['0', '1', 'c', 'd', '\n'] = some (st1, eff1) ∧
      eff1.acks = [1] ∧
      eff1.published = some (['0', '1', 'c', 'd', '\n'].drop 2) ∧
      readline st1 = some (v, st1') ∧
      readerStep st1' ['0', '1', 'c', 'd', '\n'] = some (st2, eff2) ∧
      eff2.acks = [1] ∧ eff2.published = none) ∧
    (∃ st1 eff1 v st1' st2 eff2,
      readerStep c3State ['0', '0', 'x', '\n'] = some (st1, eff1) ∧
      readline st1 = some (v, st1') ∧
      readerStep st1' ['0', '5', 'y', '\n'] = some (st2, eff2) ∧
      eff2.published = some (['0', '5', 'y', '\n'].drop 2)) :=
  ⟨reader_dup_and_reset.1 c3State ['0', '1', 'c', 'd', '\n'] 1
      (by decide) (by decide) (by decide) (by decide) (by decide),
   reader_dup_and_reset.2 c3State ['0', '0', 'x', '\n'] ['0', '5', 'y', '\n'] 5
      (by decide) (by decide) (by decide) (by decide) (by decide)
      (by decide) (by decide)⟩

/-! ## The pending-ACK set (`_acks_pend`) discipline -/

/-- Events touching `_acks_pend` or the wire, in program order: `add` is
`self._acks_pend.add(mid)` in `write` (line 80), `send` a transmission of
the serialized line, `ackRead` the reader's `discard` on a 3-byte ACK line
(line 221). -/
inductive PendEv where
  | add (mid : ℕ)
  | ackRead (mid : ℕ)
  | send (mid : ℕ)
deriving DecidableEq

/-- Effect of one event on the pending-ACK set (`SetByte` add/discard;
`discard` of an absent member is a no-op, which `Finset.erase` models). -/
def pendApply (s : Finset ℕ) : PendEv → Finset ℕ
  | .add m => insert m s
  | .ackRead m => s.erase m
  | .send _ => s

/-- The pending-ACK set after a trace of events. -/
def pendRun (s : Finset ℕ) (tr : List PendEv) : Finset ℕ := tr.foldl pendApply s

/-- The events of `Client.write` relevant to `_acks_pend`, in source order:
the identifier is added (line 80) before the line is first transmitted by
`_write` (line 82). -/
def writeEvents (mid : ℕ) : List PendEv := [.add mid, .send mid]

/-- Does this event mention identifier `m` in the pending-ACK set? -/
def isRel (m : ℕ) : PendEv → Bool
  | .add m2 => m2 = m
  | .ackRead m2 => m2 = m
  | .send _ => false

/-- The last event of the trace that touched `m`'s membership, if any. -/
def lastRel (m : ℕ) (tr : List PendEv) : Option PendEv := tr.reverse.find? (isRel m)

lemma pendRun_append (s : Finset ℕ) (tr : List PendEv) (e : PendEv) :
    pendRun s (tr ++ [e]) = pendApply (pendRun s tr) e := by
  simp [pendRun, List.foldl_append]

lemma lastRel_append (m : ℕ) (tr : List PendEv) (e : PendEv) :
    lastRel m (tr ++ [e]) = if isRel m e then some e else lastRel m tr := by
  simp only [lastRel, List.reverse_append, List.reverse_singleton,
    List.singleton_append, List.find?]
  split <;> simp_all

lemma mem_pendRun (m : ℕ) (s : Finset ℕ) (tr : List PendEv) :
    m ∈ pendRun s tr ↔
      lastRel m tr = some (.add m) ∨ (lastRel m tr = none ∧ m ∈ s) := by
  induction tr using List.reverseRecOn with
  | nil => simp [pendRun, lastRel]
  | append_singleton tr e ih =>
    rw [pendRun_append, lastRel_append]
    cases e with
    | add m2 =>
      by_cases hm : m2 = m
      · subst hm
        simp [pendApply, isRel]
      · have : isRel m (.add m2) = false := by simp [isRel, hm]
        simp [pendApply, this, Finset.mem_insert, Ne.symm hm, ih]
    | ackRead m2 =>
      by_cases hm : m2 = m
      · subst hm
        simp [pendApply, isRel]
      · have : isRel m (.ackRead m2) = false := by simp [isRel, hm]
        simp [pendApply, this, Finset.mem_erase, Ne.symm hm, ih]
    | send m2 =>
      simp [pendApply, isRel, ih]

/-- C6: pending-ACK set discipline. (1) `write` adds the identifier before
the first transmission of the line (`writeEvents` order). (2) The reader
removes an identifier exactly on a 3-byte line decoding to it. (3) Reading
an ACK whose identifier is absent is a no-op (harmless duplicate). (4)
Invariant: starting from the empty set, an identifier is in the set iff the
last event touching it was an `add` — i.e. it has been registered for
sending and not since confirmed; an absent identifier was either never
added or was last removed by its ACK. -/
theorem acks_pend_invariant :
    (∀ mid, writeEvents mid = [.add mid, .send mid]) ∧
    (∀ st line mid, parseMid line = some mid → line.length = 3 →
      readerStep st line =
        some ({ st with acksPend := st.acksPend.erase mid }, ⟨[], none⟩)) ∧
    (∀ (s : Finset ℕ) (m : ℕ), m ∉ s → pendApply s (.ackRead m) = s) ∧
    (∀ (m : ℕ) (tr : List PendEv),
      m ∈ pendRun ∅ tr ↔ lastRel m tr = some (.add m)) := by
  refine ⟨fun mid => rfl, ?_, ?_, ?_⟩
  · intro st line mid hp hlen
    unfold readerStep
    rw [hp]
    simp [hlen]
  · intro s m hm
    simp [pendApply, Finset.erase_eq_of_not_mem hm]
  · intro m tr
    rw [mem_pendRun]
    simp

/-- Witness for `acks_pend_invariant` on the trace
`add 3, send 3, ackRead 3, add 5, send 5` and the ACK line `"03\n"`. -/
theorem acks_pend_invariant_witness :
    readerStep c3State ['0', '3', '\n'] =
      some ({ c3State with acksPend := c3State.acksPend.erase 3 }, ⟨[], none⟩) ∧
    pendApply {5} (.ackRead 3) = {5} ∧
    (5 ∈ pendRun ∅ [.add 3, .send 3, .ackRead 3, .add 5, .send 5] ↔
      lastRel 5 [.add 3, .send 3, .ackRead 3, .add 5, .send 5] =
        some (.add 5)) ∧
    3 ∉ pendRun ∅ [.add 3, .send 3, .ackRead 3, .add 5, .send 5] :=
  ⟨acks_pend_invariant.2.1 c3State ['0', '3', '\n'] 3 (by decide) (by decide),
   acks_pend_invariant.2.2.1 {5} 3 (by decide),
   acks_pend_invariant.2.2.2 5 [.add 3, .send 3, .ackRead 3, .add 5, .send 5],
   by decide⟩

/-! ## Line assembly: `Client._readline` -/

/-- Outcome of one `self._sock.readline()` call on the non-blocking socket:
`closed` is `d == b''` (peer closed), `idle` is `d is None` (nothing
received, sleep 100ms), `chunk` is partial or complete data. -/
inductive RdEv where
  | closed
  | idle
  | chunk (s : List Char)
deriving DecidableEq

/-- One loop iteration's environment: `tka` is the clock value
`utime.ticks_ms()` read if this iteration starts by discarding a keepalive
(resetting `start`), `rd` the socket read outcome, `tchk` the clock value
at the per-iteration timeout check. -/
structure RLEvent where
  tka : ℕ
  rd : RdEv
  tchk : ℕ
deriving DecidableEq

/-- The local state of `_readline`: the accumulating `line` buffer, the
timeout reference `start`, plus the instance state it touches: the health
flag `self._ok` and the optional LED. -/
structure RLState where
  line : List Char
  start : ℕ
  ok : Bool
  led : Option Bool
deriving DecidableEq

/-- Result of running `_readline`: a returned line, an `OSError` (used
identically for a closed link and for a read timeout), or out of events
(the call is still waiting). -/
inductive RLResult where
  | ret (line : List Char) (st : RLState)
  | err (st : RLState)
  | more (st : RLState)
deriving DecidableEq

/-- The state carried by a result. -/
def RLResult.state : RLResult → RLState
  | .ret _ st => st
  | .err st => st
  | .more st => st

/-- The read/append/timeout part of one `_readline` iteration (client.py
lines 268-278): a closed socket raises; `None` just sleeps; data is
appended; then the elapsed time since `start` is compared to the timeout
(`utime.ticks_diff(utime.ticks_ms(), start) > self._to` raises). -/
def rlRead (tmo : ℕ) (st : RLState) (ev : RLEvent) : RLState ⊕ RLState :=
  match ev.rd with
  | .closed => .inr st
  | .idle => if tmo < ev.tchk - st.start then .inr st else .inl st
  | .chunk s =>
    let st2 := { st with line := st.line ++ s }
    if tmo < ev.tchk - st2.start then .inr st2 else .inl st2

/-- The coroutine `Client._readline` (client.py lines 254-278) over a trace of iteration
events. At each loop top: a buffer ending in the delimiter sets
`self._ok = True`; if longer than the bare delimiter it is returned,
otherwise it is a keepalive — discarded, `start` reset to the current
clock, LED toggled — and reading continues. -/
def readlineRun (tmo : ℕ) : RLState → List RLEvent → RLResult
  | st, [] =>
    if endsNL st.line then
      if 1 < st.line.length then .ret st.line { st with ok := true }
      else .more { st with ok := true }
    else .more st
  | st, ev :: evs =>
    if endsNL st.line then
      if 1 < st.line.length then .ret st.line { st with ok := true }
      else
        match rlRead tmo { st with ok := true, line := [], start := ev.tka,
                                   led := st.led.map (fun b => !b) } ev with
        | .inl st2 => readlineRun tmo st2 evs
        | .inr st2 => .err st2
    else
      match rlRead tmo st ev with
      | .inl st2 => readlineRun tmo st2 evs
      | .inr st2 => .err st2

lemma rlRead_inl_ok {tmo : ℕ} {st : RLState} {ev : RLEvent} {st2 : RLState}
    (h : rlRead tmo st ev = .inl st2) : st2.ok = st.ok := by
  rcases ev with ⟨tka, rd, tchk⟩
  cases rd <;> simp only [rlRead] at h
  · cases h
  · split at h <;> simp_all
  · split at h <;> simp_all
    subst h
    rfl

lemma rlRead_inr_ok {tmo : ℕ} {st : RLState} {ev : RLEvent} {st2 : RLState}
    (h : rlRead tmo st ev = .inr st2) : st2.ok = st.ok := by
  rcases ev with ⟨tka, rd, tchk⟩
  cases rd <;> simp only [rlRead] at h
  · simp_all
  · split at h <;> simp_all
  · split at h <;> simp_all
    subst h
    rfl

lemma readlineRun_ok_mono (tmo : ℕ) :
    ∀ (evs : List RLEvent) (st : RLState), st.ok = true →
      ((readlineRun tmo st evs).state).ok = true := by
  intro evs
  induction evs with
  | nil =>
    intro st h
    unfold readlineRun
    split_ifs <;> simp [RLResult.state, h]
  | cons ev evs ih =>
    intro st h
    unfold readlineRun
    split_ifs with h1 h2
    · simp [RLResult.state]
    · rcases hr : rlRead tmo { st with ok := true, line := [], start := ev.tka,
                                       led := st.led.map (fun b => !b) } ev with st2 | st2
      · exact ih st2 (by rw [rlRead_inl_ok hr])
      · simp [RLResult.state, rlRead_inr_ok hr]
    · rcases hr : rlRead tmo st ev with st2 | st2
      · exact ih st2 (by rw [rlRead_inl_ok hr, h])
      · simp [RLResult.state, rlRead_inr_ok hr, h]

lemma readlineRun_sets_ok (tmo : ℕ) (evs : List RLEvent) (st : RLState)
    (h : endsNL st.line = true) : ((readlineRun tmo st evs).state).ok = true := by
  cases evs with
  | nil =>
    unfold readlineRun
    rw [if_pos h]
    split_ifs <;> simp [RLResult.state]
  | cons ev evs =>
    unfold readlineRun
    rw [if_pos h]
    split_ifs with h2
    · simp [RLResult.state]
    · rcases hr : rlRead tmo { st with ok := true, line := [], start := ev.tka,
                                       led := st.led.map (fun b => !b) } ev with st2 | st2
      · exact readlineRun_ok_mono tmo evs st2 (by rw [rlRead_inl_ok hr])
      · simp [RLResult.state, rlRead_inr_ok hr]

lemma readlineRun_ret_long (tmo : ℕ) :
    ∀ (evs : List RLEvent) (st : RLState) (l : List Char) (st2 : RLState),
      readlineRun tmo st evs = .ret l st2 → 1 < l.length ∧ endsNL l = true := by
  intro evs
  induction evs with
  | nil =>
    intro st l st2 h
    unfold readlineRun at h
    split_ifs at h with h1 h2
    · cases h
      exact ⟨h2, h1⟩
  | cons ev evs ih =>
    intro st l st2 h
    unfold readlineRun at h
    split_ifs at h with h1 h2
    · cases h
      exact ⟨h2, h1⟩
    · rcases hr : rlRead tmo { st with ok := true, line := [], start := ev.tka,
                                       led := st.led.map (fun b => !b) } ev with st3 | st3 <;>
        rw [hr] at h
      · exact ih st3 l st2 h
      · exact RLResult.noConfusion h
    · rcases hr : rlRead tmo st ev with st3 | st3 <;> rw [hr] at h
      · exact ih st3 l st2 h
      · exact RLResult.noConfusion h

/-- C7: `_readline` behaviour. (1) Whenever the buffer holds a completed
line (ends with the delimiter) — a bare keepalive included — the health
flag `self._ok` is set in the resulting state. (2) Any line `_readline`
returns has length `> 1`, so a keepalive (the 1-byte delimiter) is never
surfaced to the caller. (3) A completed bare keepalive is discarded: the
buffer is cleared, the read-timeout clock `start` is reset to the current
tick, the optional LED is toggled, and reading continues. (4) A closed
socket (`d == b''`) produces `RLResult.err` (the `OSError`), and (5)/(6)
exceeding the configured timeout since the last reset point — whether the
read returned nothing or partial data — produces the very same
`RLResult.err` condition. -/
theorem readline_health_keepalive_timeout :
    (∀ (tmo : ℕ) (evs : List RLEvent) (st : RLState), endsNL st.line = true →
      ((readlineRun tmo st evs).state).ok = true) ∧
    (∀ (tmo : ℕ) (evs : List RLEvent) (st : RLState) (l : List Char)
      (st2 : RLState), readlineRun tmo st evs = .ret l st2 → 1 < l.length) ∧
    (∀ (tmo : ℕ) (st : RLState) (ev : RLEvent) (evs : List RLEvent),
      st.line = ['\n'] →
      readlineRun tmo st (ev :: evs) =
        match rlRead tmo { st with ok := true, line := [], start := ev.tka,
                                   led := st.led.map (fun b => !b) } ev with
        | .inl st2 => readlineRun tmo st2 evs
        | .inr st2 => .err st2) ∧
    (∀ (tmo : ℕ) (st : RLState) (ev : RLEvent) (evs : List RLEvent),
      endsNL st.line = false → ev.rd = .closed →
      readlineRun tmo st (ev :: evs) = .err st) ∧
    (∀ (tmo : ℕ) (st : RLState) (ev : RLEvent) (evs : List RLEvent),
      endsNL st.line = false → ev.rd = .idle → tmo < ev.tchk - st.start →
      readlineRun tmo st (ev :: evs) = .err st) ∧
    (∀ (tmo : ℕ) (st : RLState) (ev : RLEvent) (evs : List RLEvent)
      (s : List Char),
      endsNL st.line = false → ev.rd = .chunk s → tmo < ev.tchk - st.start →
      readlineRun tmo st (ev :: evs) = .err { st with line := st.line ++ s }) := by
  refine ⟨fun tmo evs st h => readlineRun_sets_ok tmo evs st h,
          fun tmo evs st l st2 h => (readlineRun_ret_long tmo evs st l st2 h).1,
          ?_, ?_, ?_, ?_⟩
  · intro tmo st ev evs h
    conv_lhs => unfold readlineRun
    rw [h]
    norm_num [endsNL]
  · intro tmo st ev evs h1 h2
    have hr : rlRead tmo st ev = .inr st := by simp [rlRead, h2]
    unfold readlineRun
    rw [if_neg (by simp [h1]), hr]
  · intro tmo st ev evs h1 h2 h3
    have hr : rlRead tmo st ev = .inr st := by simp [rlRead, h2, h3]
    unfold readlineRun
    rw [if_neg (by simp [h1]), hr]
  · intro tmo st ev evs s h1 h2 h3
    have hr : rlRead tmo st ev = .inr { st with line := st.line ++ s } := by
      simp [rlRead, h2, h3]
    unfold readlineRun
    rw [if_neg (by simp [h1]), hr]

/-- Witness for `readline_health_keepalive_timeout` at concrete states:
a completed data line, a bare keepalive with a following chunk, a closed
read, an idle timeout and a chunk timeout. -/
theorem readline_health_keepalive_timeout_witness :
    ((readlineRun 10 ⟨['a', 'b', '\n'], 0, false, some false⟩ []).state).ok =
      true ∧
    1 < (['a', 'b', '\n'] : List Char).length ∧
    readlineRun 10 (⟨['\n'], 0, false, some false⟩ : RLState)
        [⟨5, .chunk ['z', '\n'], 7⟩] =
      (match rlRead 10 ⟨[], 5, true, some true⟩ ⟨5, .chunk ['z', '\n'], 7⟩ with
        | .inl st2 => readlineRun 10 st2 []
        | .inr st2 => .err st2) ∧
    readlineRun 10 (⟨['x'], 0, true, none⟩ : RLState) [⟨0, .closed, 3⟩] =
      .err ⟨['x'], 0, true, none⟩ ∧
    readlineRun 10 (⟨['x'], 0, true, none⟩ : RLState) [⟨0, .idle, 50⟩] =
      .err ⟨['x'], 0, true, none⟩ ∧
    readlineRun 10 (⟨['x'], 0, true, none⟩ : RLState) [⟨0, .chunk ['y'], 99⟩] =
      .err ⟨['x', 'y'], 0, true, none⟩ :=
  ⟨readline_health_keepalive_timeout.1 10 [] _ (by decide),
   readline_health_keepalive_timeout.2.1 10 []
     (⟨['a', 'b', '\n'], 0, false, some false⟩ : RLState) ['a', 'b', '\n']
     ⟨['a', 'b', '\n'], 0, true, some false⟩ (by decide),
   readline_health_keepalive_timeout.2.2.1 10 _ _ [] (by decide),
   readline_health_keepalive_timeout.2.2.2.1 10 _ _ [] (by decide) (by decide),
   readline_health_keepalive_timeout.2.2.2.2.1 10 _ _ [] (by decide)
     (by decide) (by decide),
   readline_health_keepalive_timeout.2.2.2.2.2 10 _ _ [] ['y'] (by decide)
     (by decide) (by decide)⟩

/-! ## Raw send: `Client._send` -/

/-- Result of `_send`: normal return, `OSError` raised, or out of events
(the call is still in its loop). -/
inductive SRes where
  | ok
  | err
  | out
deriving DecidableEq

/-- The coroutine `Client._send` (client.py lines 280-291) over a trace of socket-send
results: each event is `(n, tc)` where `n` is the byte count accepted by
`self._sock.send` and `tc` the clock at the subsequent timeout check. The
loop runs while bytes remain (`ns < nts`), trims the buffer after a partial
send, and raises whenever the elapsed time at the check exceeds the
timeout — note the check runs even on the iteration whose send completed
the line. -/
def sendRun (tmo start : ℕ) : ℕ → List (ℕ × ℕ) → SRes
  | 0, _ => .ok
  | _ + 1, [] => .out
  | rem + 1, (n, tc) :: evs =>
    if tmo < tc - start then .err else sendRun tmo start (rem + 1 - n) evs

/-- Total bytes accepted by the first `k` socket sends. -/
def sumTake (evs : List (ℕ × ℕ)) (k : ℕ) : ℕ := ((evs.take k).map Prod.fst).sum

/-- C8 counterexample: the claim "it returns normally whenever all bytes
are sent" fails. One send accepts all 5 bytes of the line, but the clock at
the post-send check reads 1001 with timeout 1000, so `_send` raises the
send-timeout `OSError` even though the whole line went out. -/
theorem send_counterexample :
    sumTake [((5 : ℕ), (1001 : ℕ))] 1 = 5 ∧
    sendRun 1000 0 5 [(5, 1001)] = SRes.err := by decide

/-- C8 (amended): `_send` writes all bytes of the line, tolerating partial
socket writes by continuing with the remaining suffix; it returns normally
iff some prefix of the send events covers the whole line with every
per-iteration timeout check (including the one after the final send) within
the configured timeout. In particular a timeout check that fails raises the
send-timeout error even when the final send has already completed the
line. -/
theorem send_ok_iff (tmo start rem : ℕ) (evs : List (ℕ × ℕ)) :
    sendRun tmo start rem evs = SRes.ok ↔
      ∃ k, k ≤ evs.length ∧ rem ≤ sumTake evs k ∧
        ∀ p ∈ evs.take k, p.2 - start ≤ tmo := by
  induction evs generalizing rem with
  | nil =>
    match rem with
    | 0 => simp [sendRun, sumTake]
    | rem + 1 =>
      simp only [sendRun, sumTake, List.length_nil, Nat.le_zero]
      constructor
      · intro h
        cases h
      · rintro ⟨k, hk, hsum, -⟩
        subst hk
        simp at hsum
  | cons p evs ih =>
    obtain ⟨n, tc⟩ := p
    match rem with
    | 0 =>
      simp only [sendRun]
      constructor
      · intro _
        exact ⟨0, by simp [sumTake]⟩
      · intro _
        trivial
    | rem + 1 =>
      by_cases hc : tmo < tc - start
      · simp only [sendRun, if_pos hc]
        constructor
        · intro h
          cases h
        · rintro ⟨k, hk, hsum, hchk⟩
          match k with
          | 0 => simp [sumTake] at hsum
          | k + 1 =>
            have := hchk (n, tc) (by simp)
            omega
      · rw [show sendRun tmo start (rem + 1) ((n, tc) :: evs) =
              sendRun tmo start (rem + 1 - n) evs from by
            simp [sendRun, hc]]
        rw [ih (rem + 1 - n)]
        constructor
        · rintro ⟨j, hj, hsum, hchk⟩
          refine ⟨j + 1, by simpa using hj, ?_, ?_⟩
          · simp only [sumTake, List.take_succ_cons, List.map_cons,
              List.sum_cons] at hsum ⊢
            omega
          · intro q hq
            rw [List.take_succ_cons, List.mem_cons] at hq
            rcases hq with rfl | hq
            · omega
            · exact hchk q hq
        · rintro ⟨k, hk, hsum, hchk⟩
          match k with
          | 0 => simp [sumTake] at hsum
          | j + 1 =>
            refine ⟨j, by simpa using hk, ?_, ?_⟩
            · simp only [sumTake, List.take_succ_cons, List.map_cons,
                List.sum_cons] at hsum ⊢
              omega
            · intro q hq
              exact hchk q (by rw [List.take_succ_cons, List.mem_cons]; right; exact hq)

/-- Witness for `send_ok_iff`: a 5-byte line flushed in two partial sends
within the timeout returns normally. -/
theorem send_ok_iff_witness : sendRun 1000 0 5 [(3, 100), (2, 200)] = SRes.ok :=
  (send_ok_iff 1000 0 5 [(3, 100), (2, 200)]).mpr
    ⟨2, by decide, by decide, by decide⟩

/-! ## Guarded send (`_write`) and QoS retransmission (`_do_qos`) -/

/-- What the rest of the system looks like to `_write`/`_do_qos` at one
suspension point: `ok` is `self._ok`, `midPend` is `mid in self._acks_pend`
for the message id at stake, `sendOk` whether a raw `_send` of the line
invoked now returns without `OSError` (the raw send itself is modelled in
detail by `sendRun`). -/
structure Ob where
  ok : Bool
  midPend : Bool
  sendOk : Bool

/-- Control position inside `_write`: the main loop top, or the
wait-for-outage loop entered after a failed send. -/
inductive WMode where
  | main
  | failwait
deriving DecidableEq

/-- The coroutine `Client._write` (client.py lines 103-120) over an environment indexed
by the millisecond clock: wait while `self._ok` is false (sleeping
`_tim_short` per poll); then take the send lock and attempt the raw send —
on success return, on `OSError` (caught: it never escapes to the caller)
set `_evfail` and wait while `self._ok` is still true before retrying the
same line from the top. The returned log records every raw-send attempt as
`(clock, line)`. -/
def writeRun (line : List Char) (env : ℕ → Ob) (tshort : ℕ) :
    ℕ → WMode → ℕ → Option ℕ × List (ℕ × List Char)
  | 0, _, _ => (none, [])
  | fuel + 1, .main, t =>
    if (env t).ok = false then writeRun line env tshort fuel .main (t + tshort)
    else if (env t).sendOk then (some t, [(t, line)])
    else
      let r := writeRun line env tshort fuel .failwait t
      (r.1, (t, line) :: r.2)
  | fuel + 1, .failwait, t =>
    if (env t).ok then writeRun line env tshort fuel .failwait (t + tshort)
    else writeRun line env tshort fuel .main t

/-- Control position inside `_do_qos`: the outer loop top (waiting for the
outage to clear) or poll number `n` of the 10-step ACK wait. -/
inductive QMode where
  | top
  | poll (n : ℕ)
deriving DecidableEq

/-- The coroutine `Client._do_qos` (client.py lines 124-135): wait while `self._ok` is
false; then poll up to `nms100 = 10` times, sleeping 100 ms before each
check of `mid not in self._acks_pend` — if the identifier has left the
pending-ACK set, return. After 10 fruitless polls, if the link is still
healthy, resend the identical line via the full guarded send `_write` and
repeat the whole cycle. The result is the clock at return (`none` when the
fuel ran out, i.e. the call is still blocked) and the log of raw-send
attempts. -/
def qosRun (line : List Char) (env : ℕ → Ob) (tshort : ℕ) :
    ℕ → QMode → ℕ → Option ℕ × List (ℕ × List Char)
  | 0, _, _ => (none, [])
  | fuel + 1, .top, t =>
    if (env t).ok = false then qosRun line env tshort fuel .top (t + tshort)
    else qosRun line env tshort fuel (.poll 10) t
  | fuel + 1, .poll (n + 1), t =>
    if (env (t + 100)).midPend = false then (some (t + 100), [])
    else qosRun line env tshort fuel (.poll n) (t + 100)
  | fuel + 1, .poll 0, t =>
    if (env t).ok then
      match writeRun line env tshort fuel .main t with
      | (none, l) => (none, l)
      | (some t2, l) =>
        let r := qosRun line env tshort fuel .top t2
        (r.1, l ++ r.2)
    else qosRun line env tshort fuel .top t

/-- The call `Client.write` with `qos=True` (client.py lines 76-84), after the
identifier has been generated and registered: the guarded send of the
serialized line followed by `_do_qos` on the same identifier and line. -/
def writeQos (line : List Char) (env : ℕ → Ob) (tshort fuel t : ℕ) :
    Option ℕ × List (ℕ × List Char) :=
  match writeRun line env tshort fuel .main t with
  | (none, l) => (none, l)
  | (some t1, l) =>
    let r := qosRun line env tshort fuel .top t1
    (r.1, l ++ r.2)

lemma qosRun_some_not_pend (line : List Char) (env : ℕ → Ob) (tshort : ℕ) :
    ∀ (fuel : ℕ) (mode : QMode) (t t2 : ℕ) (log : List (ℕ × List Char)),
      qosRun line env tshort fuel mode t = (some t2, log) →
      (env t2).midPend = false := by
  intro fuel
  induction fuel with
  | zero =>
    intro mode t t2 log h
    simp [qosRun] at h
  | succ fuel ih =>
    intro mode t t2 log h
    match mode with
    | .top =>
      simp only [qosRun] at h
      split at h
      · exact ih _ _ _ _ h
      · exact ih _ _ _ _ h
    | .poll (n + 1) =>
      simp only [qosRun] at h
      split at h
      next hc =>
        obtain ⟨rfl, -⟩ : t + 100 = t2 ∧ [] = log := by
          simpa using h
        exact hc
      next hc => exact ih _ _ _ _ h
    | .poll 0 =>
      simp only [qosRun] at h
      split at h
      · rcases hw : writeRun line env tshort fuel .main t with ⟨o, l⟩
        rw [hw] at h
        match o with
        | none => simp at h
        | some t1 =>
          simp only at h
          have h1 : (qosRun line env tshort fuel .top t1).1 = some t2 := by
            have := congrArg Prod.fst h
            simpa using this
          exact ih .top t1 t2 (qosRun line env tshort fuel .top t1).2
            (by rw [← h1])
      · exact ih _ _ _ _ h

/-- C1: `write(payload, qos=True)` either is still blocked (no fuel left:
`none`) or has returned at a clock `t2` at which the message identifier was
observed absent from the pending-ACK set — i.e. it returns only after
positive acknowledgement. The result type has no failure outcome at all:
`OSError` inside the raw send is caught by `_write`'s retry loop (the
`except OSError: pass` arm), and `_do_qos` raises nothing, so across any
number of link failures the call keeps blocking until delivered. -/
theorem write_qos_blocks_until_acked (line : List Char) (env : ℕ → Ob)
    (tshort fuel t : ℕ) :
    (writeQos line env tshort fuel t).1 = none ∨
    ∃ t2, (writeQos line env tshort fuel t).1 = some t2 ∧
      (env t2).midPend = false := by
  unfold writeQos
  rcases hw : writeRun line env tshort fuel .main t with ⟨o, l⟩
  match o with
  | none => exact Or.inl rfl
  | some t1 =>
    rcases hq : qosRun line env tshort fuel .top t1 with ⟨o2, l2⟩
    match o2 with
    | none =>
      left
      simp [hq]
    | some t2 =>
      right
      exact ⟨t2, by simp [hq],
        qosRun_some_not_pend line env tshort fuel .top t1 t2 l2 hq⟩

lemma writeRun_log_line (line : List Char) (env : ℕ → Ob) (tshort : ℕ) :
    ∀ (fuel : ℕ) (mode : WMode) (t : ℕ) (p : ℕ × List Char),
      p ∈ (writeRun line env tshort fuel mode t).2 → p.2 = line := by
  intro fuel
  induction fuel with
  | zero =>
    intro mode t p hp
    simp [writeRun] at hp
  | succ fuel ih =>
    intro mode t p hp
    match mode with
    | .main =>
      simp only [writeRun] at hp
      split at hp
      · exact ih _ _ _ hp
      · split at hp
        · simp at hp
          rw [hp]
        · simp only [List.mem_cons] at hp
          rcases hp with rfl | hp2
          · rfl
          · exact ih _ _ _ hp2
    | .failwait =>
      simp only [writeRun] at hp
      split at hp
      · exact ih _ _ _ hp
      · exact ih _ _ _ hp

lemma qosRun_log_line (line : List Char) (env : ℕ → Ob) (tshort : ℕ) :
    ∀ (fuel : ℕ) (mode : QMode) (t : ℕ) (p : ℕ × List Char),
      p ∈ (qosRun line env tshort fuel mode t).2 → p.2 = line := by
  intro fuel
  induction fuel with
  | zero =>
    intro mode t p hp
    simp [qosRun] at hp
  | succ fuel ih =>
    intro mode t p hp
    match mode with
    | .top =>
      simp only [qosRun] at hp
      split at hp
      · exact ih _ _ _ hp
      · exact ih _ _ _ hp
    | .poll (n + 1) =>
      simp only [qosRun] at hp
      split at hp
      · simp at hp
      · exact ih _ _ _ hp
    | .poll 0 =>
      simp only [qosRun] at hp
      split at hp
      · rcases hw : writeRun line env tshort fuel .main t with ⟨o, l⟩
        rw [hw] at hp
        match o with
        | none =>
          simp only at hp
          exact writeRun_log_line line env tshort fuel .main t p (by rw [hw]; exact hp)
        | some t1 =>
          simp only [List.mem_append] at hp
          rcases hp with hp1 | hp2
          · exact writeRun_log_line line env tshort fuel .main t p
              (by rw [hw]; exact hp1)
          · exact ih _ _ _ hp2
      · exact ih _ _ _ hp

/-- C5: QoS retransmission proceeds in rounds. (1) While the link is
unhealthy the loop just sleeps `_tim_short` and re-checks. (2) Once healthy
it enters a 10-step poll phase. (3) Each poll sleeps 100 ms and then, if
the identifier has left the pending-ACK set, returns immediately with no
transmission of its own; (4) otherwise it moves to the next poll, 100 ms
later. (5) If all 10 polls elapse with the identifier still pending and
the link is still healthy, the very same serialized line is resent via the
full guarded send `_write` and the whole wait cycle repeats; (6) if the
link went down meanwhile, no resend happens and the loop returns to waiting
for health. (7) Every transmission ever logged by the QoS loop carries
exactly the original serialized line. -/
theorem qos_retransmission_rounds (line : List Char) (env : ℕ → Ob)
    (tshort : ℕ) :
    (∀ fuel t, (env t).ok = false →
      qosRun line env tshort (fuel + 1) .top t =
        qosRun line env tshort fuel .top (t + tshort)) ∧
    (∀ fuel t, (env t).ok = true →
      qosRun line env tshort (fuel + 1) .top t =
        qosRun line env tshort fuel (.poll 10) t) ∧
    (∀ fuel t n, (env (t + 100)).midPend = false →
      qosRun line env tshort (fuel + 1) (.poll (n + 1)) t =
        (some (t + 100), [])) ∧
    (∀ fuel t n, (env (t + 100)).midPend = true →
      qosRun line env tshort (fuel + 1) (.poll (n + 1)) t =
        qosRun line env tshort fuel (.poll n) (t + 100)) ∧
    (∀ fuel t t2 l, (env t).ok = true →
      writeRun line env tshort fuel .main t = (some t2, l) →
      qosRun line env tshort (fuel + 1) (.poll 0) t =
        ((qosRun line env tshort fuel .top t2).1,
          l ++ (qosRun line env tshort fuel .top t2).2)) ∧
    (∀ fuel t, (env t).ok = false →
      qosRun line env tshort (fuel + 1) (.poll 0) t =
        qosRun line env tshort fuel .top t) ∧
    (∀ fuel mode t p, p ∈ (qosRun line env tshort fuel mode t).2 →
      p.2 = line) := by
  refine ⟨?_, ?_, ?_, ?_, ?_, ?_, qosRun_log_line line env tshort⟩
  · intro fuel t h
    simp only [qosRun]
    rw [if_pos h]
  · intro fuel t h
    simp only [qosRun]
    rw [if_neg (by simp [h])]
  · intro fuel t n h
    simp only [qosRun]
    rw [if_pos h]
  · intro fuel t n h
    simp only [qosRun]
    rw [if_neg (by simp [h])]
  · intro fuel t t2 l hok hw
    simp only [qosRun]
    rw [if_pos hok, hw]
  · intro fuel t hok
    simp only [qosRun]
    rw [if_neg (by simp [hok])]

/-- A concrete environment for exercising the QoS loop: the link is healthy
from clock 100 on, the ACK arrives at clock 300, sends always succeed. -/
def envW : ℕ → Ob := fun t =>
  { ok := decide (100 ≤ t), midPend := decide (t < 300), sendOk := true }

/-- Witness for `qos_retransmission_rounds` in the environment `envW` with
line `"01x\n"` and `_tim_short` 7. -/
theorem qos_retransmission_rounds_witness :
    qosRun ['0', '1', 'x', '\n'] envW 7 3 .top 0 =
      qosRun ['0', '1', 'x', '\n'] envW 7 2 .top 7 ∧
    qosRun ['0', '1', 'x', '\n'] envW 7 3 .top 100 =
      qosRun ['0', '1', 'x', '\n'] envW 7 2 (.poll 10) 100 ∧
    qosRun ['0', '1', 'x', '\n'] envW 7 3 (.poll 5) 200 = (some 300, []) ∧
    qosRun ['0', '1', 'x', '\n'] envW 7 3 (.poll 5) 100 =
      qosRun ['0', '1', 'x', '\n'] envW 7 2 (.poll 4) 200 ∧
    qosRun ['0', '1', 'x', '\n'] envW 7 2 (.poll 0) 100 =
      ((qosRun ['0', '1', 'x', '\n'] envW 7 1 .top 100).1,
        [(100, ['0', '1', 'x', '\n'])] ++
          (qosRun ['0', '1', 'x', '\n'] envW 7 1 .top 100).2) ∧
    qosRun ['0', '1', 'x', '\n'] envW 7 3 (.poll 0) 0 =
      qosRun ['0', '1', 'x', '\n'] envW 7 2 .top 0 ∧
    (100, ['0', '1', 'x', '\n']).2 = ['0', '1', 'x', '\n'] :=
  ⟨(qos_retransmission_rounds _ envW 7).1 2 0 (by decide),
   (qos_retransmission_rounds _ envW 7).2.1 2 100 (by decide),
   (qos_retransmission_rounds _ envW 7).2.2.1 2 200 4 (by decide),
   (qos_retransmission_rounds _ envW 7).2.2.2.1 2 100 4 (by decide),
   (qos_retransmission_rounds _ envW 7).2.2.2.2.1 1 100 100
     [(100, ['0', '1', 'x', '\n'])] (by decide) (by decide),
   (qos_retransmission_rounds _ envW 7).2.2.2.2.2.1 2 0 (by decide),
   (qos_retransmission_rounds _ envW 7).2.2.2.2.2.2 2 (.poll 0) 100
     (100, ['0', '1', 'x', '\n']) (by decide)⟩

/-! ## Supervisor loop (`Client._run`): the one-shot `bad_server` policy -/

/-- Outcome of one iteration of `_run`'s `while True` body as seen by its
`try` block: `fail` is an `OSError` raised while resolving the server
address, connecting the socket or sending the identity line; `good` is a
successful session (the `else` arm, which later wakes on `_evfail`). -/
inductive Attempt where
  | fail
  | good
deriving DecidableEq

/-- The `bad_server` invocations produced by `_run`'s connection loop
(client.py lines 164-204) over a sequence of attempt outcomes. `init`
starts `True` before the loop; an `OSError` invokes `await
self.bad_server()` only when `init` is still true, and the `finally` arm
sets `init = False` after every attempt, success or failure. -/
def runLoop (init : Bool) : List Attempt → List String
  | [] => []
  | .fail :: rest =>
    (if init then ["bad_server"] else []) ++ runLoop false rest
  | .good :: rest => runLoop false rest

lemma runLoop_false (atts : List Attempt) : runLoop false atts = [] := by
  induction atts with
  | nil => rfl
  | cons a rest ih => cases a <;> simp [runLoop, ih]

/-- C9: the fatal `bad_server` hook is invoked exactly when the very first
ever connection attempt of the supervisor loop fails while connecting or
sending the identity line, and then exactly once; an `OSError` on any later
attempt is absorbed silently by the retry loop and the hook is never
invoked again. -/
theorem bad_server_first_attempt_only (atts : List Attempt) :
    runLoop true atts =
      if atts.head? = some .fail then ["bad_server"] else [] := by
  cases atts with
  | nil => rfl
  | cons a rest =>
    cases a <;> simp [runLoop, runLoop_false rest]

end IotClient
